import Mathlib

/-!
Shallow embedding of the turn-taking engine of the xiaozhi voice server:
`core/handle/audioHandle.py` (frame handling, notification scheduling,
music playback) and `core/utils/asr.py` (incremental ASR service with
retry, silence detection and an overall deadline).  External collaborators
(VAD, codec, network, LLM) are supplied as oracle inputs, times and
durations are rationals (Python floats), and machine effects (logging,
websocket sends) are recorded as data where a claim needs them.
-/

namespace XZ

/-! ### Text utilities

`remove_punctuation_and_length` and `get_string_no_punctuation_or_emoji`
live in `core/utils/util.py`, which is not part of the sources. -/

/-- Modelled from the spec: `core/utils/util.py` is missing from the
sources; the spec describes the helper as returning the length of, and,
the punctuation-and-emoji-stripped transcript.  We model the stripped
class as ASCII and CJK punctuation marks plus whitespace. -/
def isPunctChar (c : Char) : Bool :=
  c ∈ [',', '.', '!', '?', ';', ':', '"', '~', ' ',
       '，', '。', '！', '？', '；', '：', '、', '…', '“', '”']

/-- Modelled from the spec: punctuation-and-emoji stripping of a transcript
(`remove_punctuation_and_length` in the missing `core/utils/util.py`). -/
def remove_punctuation (s : String) : String :=
  ⟨s.data.filter (fun c => !isPunctChar c)⟩

/-- Modelled from the spec: returns the stripped length and the stripped
text, as `remove_punctuation_and_length` does. -/
def remove_punctuation_and_length (s : String) : Nat × String :=
  ((remove_punctuation s).length, remove_punctuation s)

/-- Boolean test that `p` is an initial run of `l` (used for the Python
`in` substring operator). -/
def charsStartWith : List Char → List Char → Bool
  | [], _ => true
  | _ :: _, [] => false
  | p :: ps, c :: cs => p == c && charsStartWith ps cs

/-- Boolean substring containment on character lists. -/
def charsContain (pat : List Char) : List Char → Bool
  | [] => charsStartWith pat []
  | c :: rest => charsStartWith pat (c :: rest) || charsContain pat rest

/-- Python `pat in s` substring containment for strings. -/
def strContains (s pat : String) : Bool :=
  charsContain pat.data s.data

/-! ### Session state for `handleAudioMessage`

One structure holding exactly the connection fields that
`core/handle/audioHandle.py` reads or writes on the frame-intake path.
The VAD (`conn.vad.is_vad`), the ASR provider result and the filesystem
are external collaborators and enter through an environment record. -/

inductive ListenMode
  | auto
  | manual
deriving DecidableEq, Repr

/-- Oracle inputs for one `handleAudioMessage` call: the VAD verdict and
the value it leaves in `conn.client_have_voice` (the VAD implementation is
external), the wall clock in milliseconds (`time.time() * 1000`), the
transcript produced by `conn.asr.speech_to_text` (empty when the backend
failed and surfaced no text), and whether the `music` directory holds a
playable file. -/
structure HEnv where
  vadHasVoice : Bool
  vadClientHaveVoice : Bool
  now : ℚ
  stt : String
  musicFilesExist : Bool

structure Conn where
  asr_server_receive : Bool
  client_listen_mode : ListenMode
  client_have_voice : Bool
  client_voice_stop : Bool
  client_abort : Bool
  asr_audio : List Nat
  client_no_voice_last_time : ℚ
  max_cmd_length : Nat
  cmd_exit : List String
  close_no_voice_time : ℚ
  closed : Bool
deriving DecidableEq, Repr

/-- Which control path one `handleAudioMessage` call took. -/
inductive AudioOutcome
  | ignoredReceiveOff
  | silenceDiscarded (farewellTriggered : Bool)
  | buffered
  | exitCommand
  | musicPlayed
  | chatStarted
  | emptyTranscript
deriving DecidableEq, Repr

/-- Embedding of `no_voice_close_connect` (audioHandle.py lines 176-186):
on the first voiceless frame record the wall clock; afterwards, once the
voiceless span exceeds `1000 * close_connection_no_voice_time`, clear the
abort flag, disable intake and start the synthetic farewell chat.  The
returned boolean records whether the farewell was triggered. -/
def no_voice_close_connect (env : HEnv) (conn : Conn) : Conn × Bool :=
  if conn.client_no_voice_last_time = 0 then
    ({ conn with client_no_voice_last_time := env.now }, false)
  else if 1000 * conn.close_no_voice_time < env.now - conn.client_no_voice_last_time then
    ({ conn with client_abort := false, asr_server_receive := false }, true)
  else (conn, false)

/-- Embedding of `handleCMDMessage` (audioHandle.py lines 56-63): exact
match of the stripped transcript against the configured exit phrases. -/
def handleCMDMessage (conn : Conn) (text : String) : Bool :=
  conn.cmd_exit.contains text

/-- Embedding of the keyword test in `check_and_play_music`
(audioHandle.py line 254). -/
def check_music_request (text : String) : Bool :=
  strContains text "播放音乐" || strContains text "放音乐" || strContains text "唱个歌"

/-- Embedding of `handleAudioMessage` (audioHandle.py lines 17-53).
`reset_vad_states` is implemented by the connection handler, which is not
under the sources; modelled from the spec as clearing the session voice
flags.  `finishToChat` closes the connection (`closed := true`). -/
def handleAudioMessage (env : HEnv) (conn : Conn) (audio : Nat) : Conn × AudioOutcome :=
  if conn.asr_server_receive = false then (conn, .ignoredReceiveOff)
  else
    let pair : Bool × Bool :=
      match conn.client_listen_mode with
      | .auto => (env.vadHasVoice, env.vadClientHaveVoice)
      | .manual => (conn.client_have_voice, conn.client_have_voice)
    let conn1 := { conn with client_have_voice := pair.2 }
    if pair.1 = false ∧ conn1.client_have_voice = false then
      let t := no_voice_close_connect env conn1
      ({ t.1 with asr_audio := [] }, .silenceDiscarded t.2)
    else
      let conn2 := { conn1 with
        client_no_voice_last_time := 0,
        asr_audio := conn1.asr_audio ++ [audio] }
      if conn2.client_voice_stop then
        let conn3 := { conn2 with client_abort := false, asr_server_receive := false }
        let stripped := remove_punctuation_and_length env.stt
        if stripped.1 ≤ conn3.max_cmd_length ∧ handleCMDMessage conn3 stripped.2 then
          ({ conn3 with closed := true }, .exitCommand)
        else if 0 < stripped.1 then
          if check_music_request stripped.2 ∧ env.musicFilesExist then
            ({ conn3 with
                asr_server_receive := true, asr_audio := [],
                client_have_voice := false, client_voice_stop := false }, .musicPlayed)
          else
            ({ conn3 with
                asr_audio := [],
                client_have_voice := false, client_voice_stop := false }, .chatStarted)
        else
          ({ conn3 with
              asr_server_receive := true, asr_audio := [],
              client_have_voice := false, client_voice_stop := false }, .emptyTranscript)
      else (conn2, .buffered)

/-- Environment of a voiceless frame arriving at time `t` (ms): the VAD
reports no voice and leaves `client_have_voice` false. -/
def envSilent (t : ℚ) : HEnv :=
  { vadHasVoice := false, vadClientHaveVoice := false, now := t,
    stt := "", musicFilesExist := false }

/-- Number of synthetic-farewell triggers over a trace of voiceless frames
arriving at the given times, threading the connection state. -/
def countFarewells (conn : Conn) : List ℚ → Nat
  | [] => 0
  | t :: ts =>
    match handleAudioMessage (envSilent t) conn 0 with
    | (c, .silenceDiscarded true) => 1 + countFarewells c ts
    | (c, _) => countFarewells c ts

/-! ### Conversation scheduler state for `sendAudioMessage`

`sendAudioMessage` (audioHandle.py lines 93-128) schedules cancellable
notifications via `schedule_with_interrupt(delay, coro)`.  A scheduled
task is recorded as the wall-clock instant it was created at, the delay
handed to `asyncio.sleep`, and the action. -/

inductive SAct
  | sentenceStart (text : String)
  | ttsStop
  | finishConn
deriving DecidableEq, Repr

structure STask where
  schedAt : ℚ
  delay : ℚ
  act : SAct
deriving DecidableEq, Repr

/-- Wall-clock instant a scheduled task fires at: `asyncio.sleep` treats a
negative delay as zero, so the task runs immediately in that case. -/
def fireAt (t : STask) : ℚ :=
  t.schedAt + (if t.delay < 0 then 0 else t.delay)

structure TTSConn where
  tts_duration : ℚ
  tts_start_speak_time : ℚ
  tts_first_text : String
  tts_last_text : String
  llm_finish_task : Bool
  scheduled : List STask
deriving DecidableEq, Repr

/-- Embedding of `isLLMWantToFinish` (audioHandle.py lines 70-79): the
stripped last or first generated segment contains one of the two
hard-coded farewell tokens. -/
def isLLMWantToFinish (first last : String) : Bool :=
  strContains (remove_punctuation last) "再见" || strContains (remove_punctuation last) "拜拜"
    || strContains (remove_punctuation first) "再见" || strContains (remove_punctuation first) "拜拜"

/-- Embedding of `sendAudioMessage` (audioHandle.py lines 93-128), called
once per generated segment with the wall clock `now` (seconds), the
segment audio duration and its text.  Audio packets are pushed to the
websocket immediately; only the scheduled notifications matter to the
claims and are recorded. -/
def sendAudioMessage (now : ℚ) (st : TTSConn) (duration : ℚ) (text : String) : TTSConn :=
  let base_delay := st.tts_duration
  let st1 := if text == st.tts_first_text then { st with tts_start_speak_time := now } else st
  let st2 := { st1 with scheduled := st1.scheduled ++ [STask.mk now base_delay (.sentenceStart text)] }
  let st3 := { st2 with tts_duration := st2.tts_duration + duration }
  if st3.llm_finish_task && (text == st3.tts_last_text) then
    let stop_duration := st3.tts_duration - (now - st3.tts_start_speak_time)
    let st4 := { st3 with scheduled := st3.scheduled ++ [STask.mk now stop_duration .ttsStop] }
    if isLLMWantToFinish st4.tts_first_text st4.tts_last_text then
      { st4 with scheduled := st4.scheduled ++ [STask.mk now stop_duration .finishConn] }
    else st4
  else st3

/-! ### Playback encoder (`send_music_file`)

audioHandle.py lines 219-238: the decoded asset is 16 kHz mono 16-bit PCM,
sliced into 60 ms frames of `frame_size = 960` samples, i.e.
`frame_size * 2 = 1920` bytes; a short final slice is zero-padded before
encoding, and one opus packet is sent per slice. -/

def frame_size : Nat := 16000 * 60 / 1000

/-- Bytes per frame: 16-bit samples, two bytes each. -/
def frameBytes : Nat := frame_size * 2

/-- Embedding of the frame loop of `send_music_file`: slice the raw PCM
bytes into `frameBytes`-sized chunks, zero-padding the final short one. -/
def chunkPad (raw : List Nat) : List (List Nat) :=
  if h : raw = [] then []
  else
    (raw.take frameBytes ++ List.replicate (frameBytes - (raw.take frameBytes).length) 0)
      :: chunkPad (raw.drop frameBytes)
termination_by raw.length
decreasing_by
  simp only [List.length_drop]
  have : 0 < raw.length := List.length_pos.mpr h
  simp only [frameBytes, frame_size]
  omega

/-- Connection fields touched by `send_music_file`. -/
structure MusicConn where
  asr_server_receive : Bool
  tts_duration : ℚ
  scheduled : List STask
  sentStart : Bool
  sentPackets : Nat
deriving DecidableEq, Repr

/-- Embedding of `send_music_file` (audioHandle.py lines 189-251).  The
decode of the asset (`AudioSegment.from_file`) is external: `none` models
a decode failure, `some (raw, durMs)` the decoded PCM bytes and the asset
duration in milliseconds.  The whole body runs under a blanket
`except Exception` (lines 248-250) which logs the error and re-enables
`asr_server_receive`; consequently the caller always sees a normal
return, modelled by the `Except` channel being `.ok` in both branches. -/
def send_music_file (now : ℚ) (conn : MusicConn) (decoded : Option (List Nat × Nat)) :
    MusicConn × Except String Unit :=
  match decoded with
  | none => ({ conn with sentStart := true, asr_server_receive := true }, .ok ())
  | some (raw, durMs) =>
    let c1 := { conn with sentStart := true }
    let c2 := { c1 with
      scheduled := c1.scheduled ++ [STask.mk now c1.tts_duration (.sentenceStart "正在播放音乐")] }
    let c3 := { c2 with tts_duration := c2.tts_duration + (durMs : ℚ) / 1000 }
    let c4 := { c3 with sentPackets := (chunkPad raw).length }
    let c5 := { c4 with scheduled := c4.scheduled ++ [STask.mk now c4.tts_duration .ttsStop] }
    (c5, .ok ())

/-! ### Incremental ASR service (`core/utils/asr.py`, `ASRService`)

The upload retry loop and the silence-driven frame loop are embedded over
oracles: one `TryOutcome` per network interaction of `upload`, and one
`Option String` per completed upload consumed by `process_audio`. -/

/-- Result of one network interaction inside `ASRService.upload`
(asr.py lines 274-325): a 200 response with a `transcription` field, a 200
response without it, a 200 response with unparsable JSON, a non-200
status, a transport failure (timeout / client error / unexpected), or an
SSL failure.  Non-200, transport and SSL outcomes consume a retry and
continue; the three 200 outcomes return at once.  The SSL branch only
additionally rewrites the URL scheme to HTTP when `use_http` is set. -/
inductive TryOutcome
  | ok (t : String)
  | noField
  | badJson
  | httpStatus (code : Nat)
  | netFail
  | sslFail
deriving DecidableEq, Repr

/-- Embedding of the `for retry in range(self.max_retries)` loop of
`ASRService.upload`: the result, paired with how many network attempts
were consumed.  An exhausted oracle list behaves like loop exit. -/
def uploadGo : Nat → List TryOutcome → Option String × Nat
  | 0, _ => (none, 0)
  | _ + 1, [] => (none, 0)
  | n + 1, t :: rest =>
    match t with
    | .ok s => (some s, 1)
    | .noField => (none, 1)
    | .badJson => (none, 1)
    | .httpStatus _ => let r := uploadGo n rest; (r.1, r.2 + 1)
    | .netFail => let r := uploadGo n rest; (r.1, r.2 + 1)
    | .sslFail => let r := uploadGo n rest; (r.1, r.2 + 1)

/-- Embedding of `ASRService.upload` (asr.py lines 259-328): empty audio
or a failed export return `none` before any attempt; otherwise the retry
loop runs.  Every failure path returns `none` normally, no exception
escapes. -/
def upload (audioLen : Nat) (max_retries : Nat) (tries : List TryOutcome) :
    Option String × Nat :=
  if audioLen = 0 then (none, 0) else uploadGo max_retries tries

/-- Frame duration hard-coded in `ASRService.__init__` (asr.py line 215). -/
def asr_frame_duration : Nat := 30

/-- State of the frame loop of `ASRService.process_audio`: the running
transcript `text` (Python `self.text`, initially the empty string, but
set to `None` when an upload fails), the accumulated silence in ms (the
local `silent_duration`), the silence flag, and the oracle list of
results of the successive uploads fired at silence onsets. -/
structure PAState where
  text : Option String
  silent_duration : Nat
  is_in_silence : Bool
  uploads : List (Option String)
deriving DecidableEq, Repr

/-- Embedding of the per-frame body of `process_audio` (asr.py lines
358-374): on a silent frame, fire an upload at the transition into
silence (overwriting `self.text` with its result), add the frame duration
to the silence counter and finalize once it reaches the threshold; on a
voiced frame, leave silence and reset the counter.  The boolean is true
when the loop returns `self.text`. -/
def paStep (threshold : Nat) (st : PAState) (silent : Bool) : PAState × Bool :=
  if silent then
    let st1 :=
      if st.is_in_silence then st
      else { st with
        is_in_silence := true,
        text := st.uploads.headD none,
        uploads := st.uploads.tail }
    let st2 := { st1 with silent_duration := st1.silent_duration + asr_frame_duration }
    (st2, decide (threshold ≤ st2.silent_duration))
  else
    ({ st with is_in_silence := false, silent_duration := 0 }, false)

/-- The frame loop of `process_audio` over a list of frame verdicts
(`true` = silent), stopping early when the silence threshold is reached.
The boolean records whether the silence-threshold return happened. -/
def paRun (threshold : Nat) : PAState → List Bool → PAState × Bool
  | st, [] => (st, false)
  | st, f :: fs =>
    let r := paStep threshold st f
    if r.2 then (r.1, true) else paRun threshold r.1 fs

/-- How `process_audio` ended, as observed by `get_transcription`
(asr.py lines 249-257): either it returned a value within the deadline,
or `asyncio.wait_for` raised `asyncio.TimeoutError`, leaving the service
state as it stood after the frames consumed so far. -/
inductive RunOutcome
  | completed (r : Option String)
  | timedOut (st : PAState)

/-- Embedding of `ASRService.get_transcription`: the `except
asyncio.TimeoutError` arm returns the stored `self.text`; no exception
propagates, so the result is `.ok` in both cases. -/
def get_transcription : RunOutcome → Except String (Option String)
  | .completed r => .ok r
  | .timedOut st => .ok st.text

/-- Number of transitions into silence along a frame list, starting from
the given silence flag (after a frame, the flag equals the frame verdict). -/
def onsets (inSil : Bool) : List Bool → Nat
  | [] => 0
  | f :: fs => (if f && !inSil then 1 else 0) + onsets f fs

/-! ### Batch decode loop (`save_audio_to_file`)

asr.py lines 51-72 and 131-152 (identical in `FunASR` and `TTSonASR`):
each opus packet of the utterance buffer is decoded inside its own
`try`; on `OpusError` the error is logged and only that packet is
skipped, every successfully decoded frame is written to the WAV file. -/

/-- PCM frames produced by the decode loop of `save_audio_to_file`, for an
external decoder oracle `d` (`none` models an `OpusError`). -/
def save_audio_pcm (d : Nat → Option Nat) (packets : List Nat) : List Nat :=
  packets.filterMap d

/-! ### Concrete fixtures used by counterexamples and witnesses -/

/-- Session about to finalize in manual (push-to-talk) mode, with one exit
phrase configured. -/
def connC1 : Conn :=
  { asr_server_receive := true, client_listen_mode := .manual, client_have_voice := true,
    client_voice_stop := true, client_abort := false, asr_audio := [],
    client_no_voice_last_time := 0, max_cmd_length := 5, cmd_exit := ["拜拜"],
    close_no_voice_time := 120, closed := false }

/-- Environment whose transcript strips to the configured exit phrase. -/
def envC1 : HEnv :=
  { vadHasVoice := false, vadClientHaveVoice := false, now := 0, stt := "拜拜。",
    musicFilesExist := false }

/-- Session about to finalize with a non-empty buffer. -/
def connC1w : Conn :=
  { asr_server_receive := true, client_listen_mode := .manual, client_have_voice := true,
    client_voice_stop := true, client_abort := false, asr_audio := [11],
    client_no_voice_last_time := 0, max_cmd_length := 5, cmd_exit := ["拜拜"],
    close_no_voice_time := 120, closed := false }

/-- Environment whose transcription came back empty. -/
def envC1w : HEnv :=
  { vadHasVoice := false, vadClientHaveVoice := false, now := 0, stt := "",
    musicFilesExist := false }

/-- Mid-response scheduler state: one second of audio already dispatched,
speaking started at time 0, and the final segment about to be delivered. -/
def ttsC3 : TTSConn :=
  { tts_duration := 1, tts_start_speak_time := 0, tts_first_text := "你好呀",
    tts_last_text := "今天很开心", llm_finish_task := true, scheduled := [] }

/-- Fresh scheduler state of a three-segment response whose final segment
carries a farewell token. -/
def tts9a : TTSConn :=
  { tts_duration := 0, tts_start_speak_time := 0, tts_first_text := "你好",
    tts_last_text := "再见", llm_finish_task := true, scheduled := [] }

/-- Three segments of five seconds each, the second and third arriving
12 and 13 seconds after speaking started. -/
def tts9 : TTSConn :=
  sendAudioMessage 13 (sendAudioMessage 12 (sendAudioMessage 0 tts9a 5 "你好") 5 "嗯嗯") 5 "再见"

/-- Single-segment farewell response. -/
def tts9w : TTSConn :=
  { tts_duration := 0, tts_start_speak_time := 0, tts_first_text := "再见",
    tts_last_text := "再见", llm_finish_task := true, scheduled := [] }

/-- Session state entering `send_music_file` with intake gated off. -/
def mc7 : MusicConn :=
  { asr_server_receive := false, tts_duration := 2, scheduled := [],
    sentStart := false, sentPackets := 0 }

/-- Fresh playback state, as set up by `check_and_play_music`. -/
def mcInit : MusicConn :=
  { asr_server_receive := false, tts_duration := 0, scheduled := [],
    sentStart := false, sentPackets := 0 }

/-- Decoder oracle that fails on packet 999 and succeeds elsewhere. -/
def decode8 : Nat → Option Nat := fun p => if p = 999 then none else some p

/-- Idle session in automatic VAD mode with the default 120 s close
timeout. -/
def connC10 : Conn :=
  { asr_server_receive := true, client_listen_mode := .auto, client_have_voice := false,
    client_voice_stop := false, client_abort := false, asr_audio := [],
    client_no_voice_last_time := 0, max_cmd_length := 5, cmd_exit := ["拜拜"],
    close_no_voice_time := 120, closed := false }

/-! ## Helper lemmas -/

theorem frameBytes_eq : frameBytes = 1920 := rfl

theorem chunkPad_nil : chunkPad [] = [] := by rw [chunkPad]; simp

theorem chunkPad_len : ∀ (n : Nat) (raw : List Nat), raw.length ≤ n →
    (chunkPad raw).length = (raw.length + 1919) / 1920 := by
  intro n
  induction n with
  | zero =>
    intro raw h
    have hr : raw = [] := List.eq_nil_of_length_eq_zero (Nat.le_zero.mp h)
    subst hr
    simp [chunkPad_nil]
  | succ n ih =>
    intro raw h
    by_cases hr : raw = []
    · subst hr; simp [chunkPad_nil]
    · rw [chunkPad]
      simp only [hr, dif_neg, not_false_iff, List.length_cons]
      have hl : 0 < raw.length := List.length_pos.mpr hr
      have hd : (raw.drop frameBytes).length = raw.length - frameBytes := List.length_drop _ _
      have hdrop : (raw.drop frameBytes).length ≤ n := by
        rw [hd, frameBytes_eq]; omega
      rw [ih _ hdrop, hd, frameBytes_eq]
      omega

theorem chunkPad_mem : ∀ (n : Nat) (raw : List Nat), raw.length ≤ n →
    ∀ c ∈ chunkPad raw, c.length = 1920 := by
  intro n
  induction n with
  | zero =>
    intro raw h
    have hr : raw = [] := List.eq_nil_of_length_eq_zero (Nat.le_zero.mp h)
    subst hr; simp [chunkPad_nil]
  | succ n ih =>
    intro raw h
    by_cases hr : raw = []
    · subst hr; simp [chunkPad_nil]
    · rw [chunkPad]
      simp only [hr, dif_neg, not_false_iff, List.mem_cons]
      rintro c (rfl | hc)
      · simp only [List.length_append, List.length_replicate, List.length_take, frameBytes_eq]
        omega
      · have hl : 0 < raw.length := List.length_pos.mpr hr
        have hd : (raw.drop frameBytes).length = raw.length - frameBytes := List.length_drop _ _
        have hdrop : (raw.drop frameBytes).length ≤ n := by
          rw [hd, frameBytes_eq]; omega
        exact ih _ hdrop c hc

theorem chunkPad_join : ∀ (n : Nat) (raw : List Nat), raw.length ≤ n →
    (chunkPad raw).flatten = raw ++ List.replicate ((chunkPad raw).length * 1920 - raw.length) 0 := by
  intro n
  induction n with
  | zero =>
    intro raw h
    have hr : raw = [] := List.eq_nil_of_length_eq_zero (Nat.le_zero.mp h)
    subst hr; simp [chunkPad_nil]
  | succ n ih =>
    intro raw h
    by_cases hr : raw = []
    · subst hr; simp [chunkPad_nil]
    · have hl : 0 < raw.length := List.length_pos.mpr hr
      have hd : (raw.drop frameBytes).length = raw.length - frameBytes := List.length_drop _ _
      have hdrop : (raw.drop frameBytes).length ≤ n := by
        rw [hd, frameBytes_eq]; omega
      have hlen2 := chunkPad_len n (raw.drop frameBytes) hdrop
      rw [chunkPad]
      simp only [hr, dif_neg, not_false_iff, List.flatten_cons, List.length_cons]
      rw [ih _ hdrop]
      by_cases hbig : frameBytes ≤ raw.length
      · have htake : (raw.take frameBytes).length = frameBytes := by
          rw [List.length_take]; omega
        rw [htake]
        simp only [Nat.sub_self, List.replicate_zero, List.append_nil]
        rw [← List.append_assoc, List.take_append_drop]
        rw [hlen2, hd, frameBytes_eq]
        rw [frameBytes_eq] at hbig
        exact congrArg (fun x => raw ++ x)
          (congrArg (fun k => List.replicate k (0:Nat)) (by omega))
      · have hdropnil : raw.drop frameBytes = [] := by
          apply List.drop_eq_nil_of_le; omega
        have htake : raw.take frameBytes = raw := by
          apply List.take_of_length_le; omega
        rw [hdropnil, htake, chunkPad_nil]
        simp [frameBytes_eq]

theorem paRun_append (th : Nat) (pre suf : List Bool) : ∀ (st : PAState),
    (paRun th st pre).2 = false →
    paRun th st (pre ++ suf) = paRun th (paRun th st pre).1 suf := by
  induction pre with
  | nil => intro st _; simp [paRun]
  | cons f fs ih =>
    intro st h
    by_cases hstep : (paStep th st f).2 = true
    · simp [paRun, hstep] at h
    · rw [Bool.not_eq_true] at hstep
      simp only [paRun, hstep, List.cons_append, Bool.false_eq_true, if_false] at h ⊢
      exact ih _ h

theorem paStep_silent_sd (th : Nat) (st : PAState) :
    (paStep th st true).1.silent_duration = st.silent_duration + 30 := by
  by_cases h : st.is_in_silence <;> simp [paStep, h, asr_frame_duration]

theorem paStep_voiced (th : Nat) (st : PAState) :
    paStep th st false = ({ st with is_in_silence := false, silent_duration := 0 }, false) := by
  simp [paStep]

theorem paRun_silent_chain : ∀ (k sd : Nat) (t : Option String) (us : List (Option String)),
    sd + 30 * k < 300 →
    paRun 300 ⟨t, sd, true, us⟩ (List.replicate k true) = (⟨t, sd + 30 * k, true, us⟩, false) := by
  intro k
  induction k with
  | zero => intro sd t us _; simp [paRun]
  | succ n ih =>
    intro sd t us h
    rw [List.replicate_succ]
    have hlt : ¬ (300 ≤ sd + asr_frame_duration) := by simp only [asr_frame_duration]; omega
    have hd : decide (300 ≤ sd + asr_frame_duration) = false := decide_eq_false hlt
    simp only [paRun, paStep, if_pos, if_true, hd, Bool.false_eq_true, if_false]
    rw [ih (sd + asr_frame_duration) t us (by simp only [asr_frame_duration] at *; omega)]
    simp only [Prod.mk.injEq, PAState.mk.injEq, asr_frame_duration, and_true, true_and,
      and_self]
    omega

theorem paRun_silent_fin : ∀ (k sd : Nat) (t : Option String) (us : List (Option String)),
    0 < k → sd + 30 * k = 300 →
    paRun 300 ⟨t, sd, true, us⟩ (List.replicate k true) = (⟨t, 300, true, us⟩, true) := by
  intro k
  induction k with
  | zero => intro sd t us h; omega
  | succ n ih =>
    intro sd t us _ h
    rw [List.replicate_succ]
    by_cases hn : n = 0
    · subst hn
      have h30 : sd + asr_frame_duration = 300 := by simp only [asr_frame_duration]; omega
      have hd : decide (300 ≤ sd + asr_frame_duration) = true := by
        rw [h30]; simp
      simp only [paRun, paStep, if_pos, if_true, hd]
      simp only [h30]
    · have hlt : ¬ (300 ≤ sd + asr_frame_duration) := by
        simp only [asr_frame_duration]; omega
      have hd : decide (300 ≤ sd + asr_frame_duration) = false := decide_eq_false hlt
      simp only [paRun, paStep, if_pos, if_true, hd, Bool.false_eq_true, if_false]
      rw [ih (sd + asr_frame_duration) t us (by omega)
        (by simp only [asr_frame_duration] at *; omega)]

theorem paRun_onset (t : Option String) (us : List (Option String)) (fs : List Bool) :
    paRun 300 ⟨t, 0, false, us⟩ (true :: fs) =
      paRun 300 ⟨us.headD none, 30, true, us.tail⟩ fs := by
  have hlt : ¬ (300 ≤ 0 + asr_frame_duration) := by simp [asr_frame_duration]
  have hd : decide (300 ≤ 0 + asr_frame_duration) = false := decide_eq_false hlt
  simp [paRun, paStep, hd, asr_frame_duration]

theorem getD_tail_helper (us : List (Option String)) (k : Nat) :
    us.getD (k + 1) none = us.tail.getD k none := by
  cases us <;> simp [List.getD]

theorem drop_succ_tail_helper (us : List (Option String)) (k : Nat) :
    us.drop (k + 1) = us.tail.drop k := by
  cases us <;> simp

theorem paRun_text_char (th : Nat) (fs : List Bool) :
    ∀ (t : Option String) (sd : Nat) (inSil : Bool) (us : List (Option String)),
    (paRun th ⟨t, sd, inSil, us⟩ fs).2 = false →
    (paRun th ⟨t, sd, inSil, us⟩ fs).1.text =
        (if onsets inSil fs = 0 then t else us.getD (onsets inSil fs - 1) none)
    ∧ (paRun th ⟨t, sd, inSil, us⟩ fs).1.uploads = us.drop (onsets inSil fs) := by
  induction fs with
  | nil => intro t sd inSil us _; simp [paRun, onsets]
  | cons f rest ih =>
    intro t sd inSil us h
    by_cases hstep : (paStep th ⟨t, sd, inSil, us⟩ f).2 = true
    · simp [paRun, hstep] at h
    · rw [Bool.not_eq_true] at hstep
      have hrun : paRun th ⟨t, sd, inSil, us⟩ (f :: rest)
          = paRun th (paStep th ⟨t, sd, inSil, us⟩ f).1 rest := by
        simp only [paRun, hstep, Bool.false_eq_true, if_false]
      rw [hrun] at h ⊢
      cases f with
      | false =>
        have hst : (paStep th ⟨t, sd, inSil, us⟩ false).1 = ⟨t, 0, false, us⟩ := by
          rw [paStep_voiced]
        rw [hst] at h ⊢
        have hh := ih t 0 false us h
        simpa [onsets] using hh
      | true =>
        cases inSil with
        | true =>
          have hst : (paStep th ⟨t, sd, true, us⟩ true).1 = ⟨t, sd + 30, true, us⟩ := by
            simp [paStep, asr_frame_duration]
          rw [hst] at h ⊢
          have hh := ih t (sd + 30) true us h
          simpa [onsets] using hh
        | false =>
          have hst : (paStep th ⟨t, sd, false, us⟩ true).1
              = ⟨us.headD none, sd + 30, true, us.tail⟩ := by
            simp [paStep, asr_frame_duration]
          rw [hst] at h ⊢
          have hh := ih (us.headD none) (sd + 30) true us.tail h
          have honsets : onsets false (true :: rest) = onsets true rest + 1 := by
            simp [onsets]; omega
          rw [honsets]
          constructor
          · rw [hh.1]
            cases hk : onsets true rest with
            | zero =>
              simp only [hk, if_pos rfl]
              cases us <;> simp
            | succ j =>
              have : j + 1 + 1 - 1 = j + 1 := by omega
              rw [this]
              simp only [Nat.add_eq_zero, and_false, if_false, Nat.succ_ne_zero,
                Nat.add_sub_cancel]
              rw [getD_tail_helper]
          · rw [hh.2, drop_succ_tail_helper]

theorem sendAudio_sched (now : ℚ) (st : TTSConn) (duration : ℚ) (text : String)
    (hfin : st.llm_finish_task = true) (hlast : text = st.tts_last_text) :
    (sendAudioMessage now st duration text).scheduled
      = st.scheduled
        ++ STask.mk now st.tts_duration (.sentenceStart text)
          :: STask.mk now ((st.tts_duration + duration) -
              (now - (if text == st.tts_first_text then now else st.tts_start_speak_time))) .ttsStop
          :: (if isLLMWantToFinish st.tts_first_text st.tts_last_text then
              [STask.mk now ((st.tts_duration + duration) -
                (now - (if text == st.tts_first_text then now else st.tts_start_speak_time))) .finishConn]
            else []) := by
  subst hlast
  unfold sendAudioMessage
  by_cases hf : (st.tts_last_text == st.tts_first_text) = true <;>
    by_cases hw : isLLMWantToFinish st.tts_first_text st.tts_last_text = true <;>
      simp [hf, hw, hfin, List.append_assoc]

theorem sendAudio_sched_nofin (now : ℚ) (st : TTSConn) (duration : ℚ) (text : String)
    (hw : isLLMWantToFinish st.tts_first_text st.tts_last_text = false) :
    ∀ t ∈ (sendAudioMessage now st duration text).scheduled.drop st.scheduled.length,
      t.act ≠ .finishConn := by
  unfold sendAudioMessage
  by_cases hf : (text == st.tts_first_text) = true <;>
    by_cases hc : (st.llm_finish_task && (text == st.tts_last_text)) = true <;>
      simp [hf, hc, hw, List.append_assoc, List.drop_left]

theorem countFarewells_off (ts : List ℚ) (conn : Conn)
    (h : conn.asr_server_receive = false) :
    countFarewells conn ts = 0 := by
  induction ts with
  | nil => simp [countFarewells]
  | cons t ts ih =>
    simp only [countFarewells, handleAudioMessage, h, if_pos]
    exact ih

theorem countFarewells_armed (ts : List ℚ) : ∀ (conn : Conn) (L : ℚ),
    conn.asr_server_receive = true →
    conn.client_listen_mode = .auto →
    conn.client_have_voice = false →
    conn.client_no_voice_last_time = L →
    L ≠ 0 →
    conn.close_no_voice_time = 120 →
    countFarewells conn ts = (if ts.any (fun t => decide (120000 < t - L)) then 1 else 0) := by
  induction ts with
  | nil => intro conn L _ _ _ _ _ _; simp [countFarewells]
  | cons t ts ih =>
    intro conn L h1 h2 h3 h4 h5 h6
    have hnum : (1000 : ℚ) * 120 = 120000 := by norm_num
    by_cases hc : (120000 : ℚ) < t - L
    · have hstep : handleAudioMessage (envSilent t) conn 0 =
          ({ conn with
              client_have_voice := false, client_abort := false,
              asr_server_receive := false, asr_audio := [] }, .silenceDiscarded true) := by
        simp [handleAudioMessage, no_voice_close_connect, envSilent, h1, h2, h3, h4, h5, h6,
          hnum, hc]
      simp only [countFarewells, hstep]
      rw [countFarewells_off ts _ rfl]
      simp [List.any_cons, hc]
    · have hstep : handleAudioMessage (envSilent t) conn 0 =
          ({ conn with client_have_voice := false, asr_audio := [] },
            .silenceDiscarded false) := by
        simp [handleAudioMessage, no_voice_close_connect, envSilent, h1, h2, h3, h4, h5, h6,
          hnum, hc]
      simp only [countFarewells, hstep]
      rw [ih { conn with client_have_voice := false, asr_audio := [] } L h1 h2 rfl h4 h5 h6]
      simp [List.any_cons, hc]

/-! ## Claim C1 -/

/-- Claim C1, counterexample: on the exit-command finalize path
(transcript stripping to a configured exit phrase), `handleAudioMessage`
returns with the receive flag still disabled and the utterance buffer not
cleared, contradicting the claim that every finalize path ends with
`asr_server_receive = true` and an empty `asr_audio`. -/
theorem c1_cex :
    (handleAudioMessage envC1 connC1 7).2 = .exitCommand
  ∧ ¬ ((handleAudioMessage envC1 connC1 7).1.asr_server_receive = true
        ∧ (handleAudioMessage envC1 connC1 7).1.asr_audio = []) := by
  decide

/-- Claim C1, amended: after a finalize attempt, the receive flag and the
utterance buffer depend on the path taken.  The empty-transcript path
(which includes backend failure, decode-to-nothing and timeout, all
surfaced as an empty transcript) and the music path restore the flag and
clear the buffer; the chat path clears the buffer but leaves the flag
disabled until the stop notification; the exit-command path leaves the
flag disabled and the buffer uncleared, closing the connection instead. -/
theorem c1_amd (env : HEnv) (conn : Conn) (audio : Nat) :
    ((handleAudioMessage env conn audio).2 = .emptyTranscript →
      (handleAudioMessage env conn audio).1.asr_server_receive = true
      ∧ (handleAudioMessage env conn audio).1.asr_audio = [])
  ∧ ((handleAudioMessage env conn audio).2 = .musicPlayed →
      (handleAudioMessage env conn audio).1.asr_server_receive = true
      ∧ (handleAudioMessage env conn audio).1.asr_audio = [])
  ∧ ((handleAudioMessage env conn audio).2 = .chatStarted →
      (handleAudioMessage env conn audio).1.asr_server_receive = false
      ∧ (handleAudioMessage env conn audio).1.asr_audio = [])
  ∧ ((handleAudioMessage env conn audio).2 = .exitCommand →
      (handleAudioMessage env conn audio).1.asr_server_receive = false
      ∧ (handleAudioMessage env conn audio).1.asr_audio ≠ []
      ∧ (handleAudioMessage env conn audio).1.closed = true) := by
  unfold handleAudioMessage
  repeat' split <;> try simp

/-- Claim C1, witness: the empty-transcript finalize path at a concrete
session restores the receive flag and clears the buffer. -/
theorem c1_wit :
    (handleAudioMessage envC1w connC1w 7).2 = .emptyTranscript
  ∧ (handleAudioMessage envC1w connC1w 7).1.asr_server_receive = true
  ∧ (handleAudioMessage envC1w connC1w 7).1.asr_audio = [] := by
  have h := (c1_amd envC1w connC1w 7).1 (by decide)
  exact ⟨by decide, h.1, h.2⟩

/-! ## Claim C2 -/

/-- Claim C2, counterexample: an upload attempt that fails all three
retries returns `none` after exactly three tries, and at the next silence
onset `process_audio` stores that `none` into the running transcript,
erasing the previously accumulated partial transcript instead of
preserving it (processing does continue, without the silence-threshold
return). -/
theorem c2_cex :
    (upload 5 3 [.netFail, .netFail, .netFail]) = (none, 3)
  ∧ (paRun 300 ⟨some "你好", 0, false,
        [(upload 5 3 [.netFail, .netFail, .netFail]).1]⟩ [true, false]).1.text = none
  ∧ (paRun 300 ⟨some "你好", 0, false,
        [(upload 5 3 [.netFail, .netFail, .netFail]).1]⟩ [true, false]).2 = false
  ∧ (some "你好" ≠ (none : Option String)) := by
  refine ⟨rfl, ?_, ?_, by decide⟩ <;> decide

/-- Claim C2, amended: with `max_retries = 3`, three consecutive transport
failures consume exactly the three attempts and `upload` returns `none`
as a value, with no further retry and no exception; at a silence onset
`process_audio` overwrites the running transcript with the upload result
(so a failed upload replaces the prior partial transcript with `none`
rather than preserving it), and when the silence threshold is not reached
processing continues with the subsequent frames. -/
theorem c2_amd :
    (∀ rest : List TryOutcome,
      uploadGo 3 (.netFail :: .netFail :: .netFail :: rest) = (none, 3))
  ∧ (∀ st : PAState, st.is_in_silence = false →
      (paStep 300 st true).1.text = st.uploads.headD none)
  ∧ (∀ (st : PAState) (fs : List Bool), (paStep 300 st true).2 = false →
      paRun 300 st (true :: fs) = paRun 300 (paStep 300 st true).1 fs) := by
  refine ⟨fun rest => rfl, ?_, ?_⟩
  · intro st hs
    simp [paStep, hs]
  · intro st fs hstep
    simp only [paRun, hstep, Bool.false_eq_true, if_false]

/-- Claim C2, witness: the amended statement at a concrete state whose
single pending upload failed. -/
theorem c2_wit :
    uploadGo 3 [.netFail, .netFail, .netFail] = (none, 3)
  ∧ (paStep 300 ⟨some "你好", 0, false, [none]⟩ true).1.text = none
  ∧ paRun 300 ⟨some "你好", 0, false, [none]⟩ [true, false]
      = paRun 300 (paStep 300 ⟨some "你好", 0, false, [none]⟩ true).1 [false] := by
  refine ⟨c2_amd.1 [], ?_, c2_amd.2.2 ⟨some "你好", 0, false, [none]⟩ [false] (by decide)⟩
  rw [c2_amd.2.1 ⟨some "你好", 0, false, [none]⟩ rfl]
  rfl

/-! ## Claim C3 -/

/-- Claim C3, counterexample: with one second of audio dispatched,
speaking started three seconds ago and a one-second final segment, the
scheduled stop notification carries delay `(1 + 1) - (3 - 0) = -1`, which
is negative: the code performs no clamping of the stop delay. -/
theorem c3_cex :
    ((sendAudioMessage 3 ttsC3 1 "今天很开心").scheduled.getD 1 (STask.mk 0 0 .ttsStop)).act
        = .ttsStop
  ∧ ((sendAudioMessage 3 ttsC3 1 "今天很开心").scheduled.getD 1 (STask.mk 0 0 .ttsStop)).delay
        < 0 := by
  constructor <;>
    simp [sendAudioMessage, ttsC3, isLLMWantToFinish, remove_punctuation, strContains,
      charsContain, charsStartWith, isPunctChar]
  norm_num

/-- Claim C3, amended: when the final segment of a completed response is
delivered, the stop notification is scheduled at delay exactly
`cursor - elapsedSinceFirstSegment` (the cursor already advanced by the
final segment), with no clamping applied, so the delay value may be
negative; the sleep primitive then fires it immediately. -/
theorem c3_amd (now : ℚ) (st : TTSConn) (duration : ℚ) (text : String)
    (hfin : st.llm_finish_task = true) (hlast : text = st.tts_last_text) :
    (sendAudioMessage now st duration text).scheduled.drop st.scheduled.length
      = STask.mk now st.tts_duration (.sentenceStart text)
        :: STask.mk now ((st.tts_duration + duration) -
            (now - (if text == st.tts_first_text then now else st.tts_start_speak_time))) .ttsStop
        :: (if isLLMWantToFinish st.tts_first_text st.tts_last_text then
            [STask.mk now ((st.tts_duration + duration) -
              (now - (if text == st.tts_first_text then now else st.tts_start_speak_time))) .finishConn]
          else []) := by
  rw [sendAudio_sched now st duration text hfin hlast, List.drop_left]

/-- Claim C3, witness: the amended statement at the concrete state of the
counterexample, exhibiting the unclamped negative stop delay. -/
theorem c3_wit :
    (sendAudioMessage 3 ttsC3 1 "今天很开心").scheduled
      = [STask.mk 3 1 (.sentenceStart "今天很开心"), STask.mk 3 (-1) .ttsStop] := by
  have h := c3_amd 3 ttsC3 1 "今天很开心" rfl rfl
  simp only [ttsC3, List.drop_nil, List.length_nil, List.drop_zero] at h
  simp only [ttsC3]
  rw [h]
  simp [isLLMWantToFinish, remove_punctuation, strContains, charsContain, charsStartWith,
    isPunctChar, ttsC3]
  norm_num

/-! ## Claim C4 -/

/-- Claim C4: when the overall `max_duration` deadline preempts the
silence-threshold return, `get_transcription` does not raise: it returns
the stored running transcript, which equals the result of the most recent
upload completed at a silence onset (or the initial text when no upload
was fired). -/
theorem c4_thm (fs : List Bool) (us : List (Option String)) (init : Option String)
    (h : (paRun 300 ⟨init, 0, false, us⟩ fs).2 = false) :
    get_transcription (.timedOut (paRun 300 ⟨init, 0, false, us⟩ fs).1)
      = .ok ((paRun 300 ⟨init, 0, false, us⟩ fs).1.text)
  ∧ (paRun 300 ⟨init, 0, false, us⟩ fs).1.text
      = (if onsets false fs = 0 then init else us.getD (onsets false fs - 1) none) := by
  exact ⟨rfl, (paRun_text_char 300 fs init 0 false us h).1⟩

/-- Claim C4, witness: a run whose single silence onset uploaded a
partial transcript, timed out before finalization, returns it. -/
theorem c4_wit :
    get_transcription (.timedOut (paRun 300 ⟨some "", 0, false, [some "今天天气"]⟩ [true, false]).1)
      = .ok (some "今天天气") := by
  have h := c4_thm [true, false] [some "今天天气"] (some "") (by decide)
  rw [h.1, h.2]
  rfl

/-! ## Claim C5 -/

/-- Claim C5: with `silent_threshold = 300` ms and 30 ms frames, each
silent frame adds 30 to the silence counter and a voiced frame resets it
to 0; from any post-speech state (counter 0, not in silence, no earlier
finalization), up to nine consecutive silent frames do not finalize,
exactly ten do, the counter stands at 300 at that moment, and the
returned transcript is the one uploaded at the silence onset. -/
theorem c5_thm (pre : List Bool) (st0 : PAState)
    (hfin : (paRun 300 st0 pre).2 = false)
    (hsd : (paRun 300 st0 pre).1.silent_duration = 0)
    (hsil : (paRun 300 st0 pre).1.is_in_silence = false) :
    (∀ st : PAState, (paStep 300 st true).1.silent_duration = st.silent_duration + 30
       ∧ (paStep 300 st false).1.silent_duration = 0)
  ∧ (∀ k, k ≤ 9 → (paRun 300 st0 (pre ++ List.replicate k true)).2 = false)
  ∧ (paRun 300 st0 (pre ++ List.replicate 10 true)).2 = true
  ∧ (paRun 300 st0 (pre ++ List.replicate 10 true)).1.silent_duration = 300
  ∧ (paRun 300 st0 (pre ++ List.replicate 10 true)).1.text
      = (paRun 300 st0 pre).1.uploads.headD none := by
  have hst : (paRun 300 st0 pre).1 =
      ⟨(paRun 300 st0 pre).1.text, 0, false, (paRun 300 st0 pre).1.uploads⟩ := by
    rw [← hsd, ← hsil]
  have h10 : paRun 300 st0 (pre ++ List.replicate 10 true) =
      (⟨(paRun 300 st0 pre).1.uploads.headD none, 300, true,
        (paRun 300 st0 pre).1.uploads.tail⟩, true) := by
    rw [paRun_append 300 pre _ st0 hfin, hst]
    show paRun 300 _ (true :: List.replicate 9 true) = _
    rw [paRun_onset]
    exact paRun_silent_fin 9 30 _ _ (by omega) (by omega)
  refine ⟨?_, ?_, ?_, ?_, ?_⟩
  · intro st
    exact ⟨paStep_silent_sd 300 st, by rw [paStep_voiced]⟩
  · intro k hk
    rw [paRun_append 300 pre _ st0 hfin, hst]
    match k, hk with
    | 0, _ => simp [paRun]
    | (n+1), hk =>
      show (paRun 300 _ (true :: List.replicate n true)).2 = false
      rw [paRun_onset]
      rw [paRun_silent_chain n 30 _ _ (by omega)]
  · rw [h10]
  · rw [h10]
  · rw [h10]

/-- Claim C5, witness: after one voiced frame, nine silent frames do not
finalize, ten do, and the onset upload is returned. -/
theorem c5_wit :
    (paRun 300 ⟨some "", 0, false, [some "好的"]⟩ ([false] ++ List.replicate 9 true)).2 = false
  ∧ (paRun 300 ⟨some "", 0, false, [some "好的"]⟩ ([false] ++ List.replicate 10 true)).2 = true
  ∧ (paRun 300 ⟨some "", 0, false, [some "好的"]⟩ ([false] ++ List.replicate 10 true)).1.text
      = some "好的" := by
  have h := c5_thm [false] ⟨some "", 0, false, [some "好的"]⟩ (by decide) (by decide) (by decide)
  refine ⟨h.2.1 9 (by omega), h.2.2.1, ?_⟩
  rw [h.2.2.2.2]
  decide

/-! ## Claim C6 -/

/-- Claim C6: a decoded asset of `D` milliseconds at 16 kHz mono 16-bit
occupies `32 * D` bytes and is sliced into exactly `ceil(D / 60)` frames
of 1920 bytes each, the final short frame zero-padded (the concatenation
of the frames is the input followed by the padding zeros); one opus
packet is sent per frame, so `send_music_file` sends `ceil(D / 60)`
packets. -/
theorem c6_thm (raw : List Nat) (D : Nat) (h : raw.length = 32 * D) :
    (chunkPad raw).length = (D + 59) / 60
  ∧ (∀ c ∈ chunkPad raw, c.length = 1920)
  ∧ (chunkPad raw).flatten = raw ++ List.replicate ((chunkPad raw).length * 1920 - raw.length) 0
  ∧ (∀ (now : ℚ) (conn : MusicConn) (durMs : Nat),
      (send_music_file now conn (some (raw, durMs))).1.sentPackets = (D + 59) / 60) := by
  have hlen := chunkPad_len raw.length raw (le_refl _)
  have hcount : (raw.length + 1919) / 1920 = (D + 59) / 60 := by omega
  refine ⟨hlen.trans hcount, ?_, chunkPad_join raw.length raw (le_refl _), ?_⟩
  · intro c hc
    exact chunkPad_mem raw.length raw (le_refl _) c hc
  · intro now conn durMs
    simp [send_music_file]
    exact hlen.trans hcount

/-- Claim C6, witness: a 2500 ms asset (80000 PCM bytes) yields exactly
`ceil(2500 / 60) = 42` packets. -/
theorem c6_wit :
    (chunkPad (List.replicate 80000 (0:Nat))).length = 42
  ∧ (send_music_file 0 mcInit (some (List.replicate 80000 (0:Nat), 2500))).1.sentPackets = 42 := by
  have h := c6_thm (List.replicate 80000 (0:Nat)) 2500 (by simp only [List.length_replicate])
  constructor
  · rw [h.1]
  · rw [h.2.2.2 0 mcInit 2500]

/-! ## Claim C7 -/

/-- Claim C7, counterexample: a decode failure inside `send_music_file`
is caught by the blanket handler, so the call completes normally (the
caller observes no `PlaybackError`), while the receive flag is restored
to true; the claim that the operation fails with an error surfaced to the
caller is false. -/
theorem c7_cex :
    (send_music_file 0 mc7 none).2 = .ok ()
  ∧ (send_music_file 0 mc7 none).1.asr_server_receive = true := ⟨rfl, rfl⟩

/-- Claim C7, amended: on decode failure `send_music_file` swallows the
exception (logging it), returns normally with no error surfaced to the
caller, and restores `asr_server_receive := true`; on success it also
returns normally and leaves the receive flag untouched. -/
theorem c7_amd :
    (∀ (now : ℚ) (conn : MusicConn),
      send_music_file now conn none
        = ({ conn with sentStart := true, asr_server_receive := true }, .ok ()))
  ∧ (∀ (now : ℚ) (conn : MusicConn) (raw : List Nat) (durMs : Nat),
      (send_music_file now conn (some (raw, durMs))).2 = .ok ()
      ∧ (send_music_file now conn (some (raw, durMs))).1.asr_server_receive
          = conn.asr_server_receive) := by
  exact ⟨fun now conn => rfl, fun now conn raw durMs => ⟨rfl, rfl⟩⟩

/-! ## Claim C8 -/

/-- Claim C8, counterexample: a buffer holding one malformed packet
between two good ones decodes to the two good frames, which are written
and transcribed; the utterance is not discarded, contradicting the
claim. -/
theorem c8_cex :
    save_audio_pcm decode8 [1, 999, 2] = [1, 2]
  ∧ save_audio_pcm decode8 [1, 999, 2] ≠ [] := by decide

/-- Claim C8, amended: a malformed packet is skipped individually — the
decoded PCM of a buffer containing it equals the decoded PCM of the
buffer with that packet removed — and the surrounding frames are kept in
order and transcribed. -/
theorem c8_amd (d : Nat → Option Nat) (xs ys : List Nat) (b : Nat) (hb : d b = none) :
    save_audio_pcm d (xs ++ b :: ys) = save_audio_pcm d xs ++ save_audio_pcm d ys
  ∧ save_audio_pcm d (xs ++ b :: ys) = save_audio_pcm d (xs ++ ys) := by
  constructor <;> simp [save_audio_pcm, List.filterMap_append, List.filterMap_cons, hb]

/-- Claim C8, witness: the amended statement at a concrete buffer with
one undecodable packet. -/
theorem c8_wit :
    save_audio_pcm decode8 ([1] ++ 999 :: [2])
      = save_audio_pcm decode8 [1] ++ save_audio_pcm decode8 [2] := by
  exact (c8_amd decode8 [1] [2] 999 (by decide)).1

/-! ## Claim C9 -/

/-- Claim C9, counterexample: in a three-segment farewell response whose
later segments arrive slowly, the termination task (index 4) is scheduled
at the same delay as stop, but both its delay and its firing instant are
strictly smaller than those of the second segment's sentence
notification (index 1) — the termination is not "no earlier than any
prior segment notification". -/
theorem c9_cex :
    ((tts9.scheduled.getD 4 (STask.mk 0 0 .ttsStop)).act = .finishConn
      ∧ (tts9.scheduled.getD 3 (STask.mk 0 0 .ttsStop)).act = .ttsStop
      ∧ (tts9.scheduled.getD 1 (STask.mk 0 0 .ttsStop)).act = .sentenceStart "嗯嗯")
  ∧ (tts9.scheduled.getD 4 (STask.mk 0 0 .ttsStop)).delay
      < (tts9.scheduled.getD 1 (STask.mk 0 0 .ttsStop)).delay
  ∧ fireAt (tts9.scheduled.getD 4 (STask.mk 0 0 .ttsStop))
      < fireAt (tts9.scheduled.getD 1 (STask.mk 0 0 .ttsStop)) := by
  refine ⟨⟨?_, ?_, ?_⟩, ?_, ?_⟩ <;>
    simp [tts9, tts9a, sendAudioMessage, isLLMWantToFinish, remove_punctuation, strContains,
      charsContain, charsStartWith, isPunctChar, fireAt] <;>
    norm_num

/-- Claim C9, amended: when a completed response's stripped first or last
segment contains a farewell token, the termination is scheduled together
with the stop notification — same scheduling instant and exactly the
same delay, hence the same firing instant as stop; a response containing
no farewell token schedules no termination.  The termination is not,
however, guaranteed to fire after earlier segment notifications. -/
theorem c9_amd (now : ℚ) (st : TTSConn) (duration : ℚ) (text : String) :
    (st.llm_finish_task = true → text = st.tts_last_text →
      isLLMWantToFinish st.tts_first_text st.tts_last_text = true →
      ∃ d : ℚ,
        (sendAudioMessage now st duration text).scheduled.drop st.scheduled.length
          = [STask.mk now st.tts_duration (.sentenceStart text),
             STask.mk now d .ttsStop, STask.mk now d .finishConn]
        ∧ fireAt (STask.mk now d .finishConn) = fireAt (STask.mk now d .ttsStop))
  ∧ (isLLMWantToFinish st.tts_first_text st.tts_last_text = false →
      ∀ t ∈ (sendAudioMessage now st duration text).scheduled.drop st.scheduled.length,
        t.act ≠ .finishConn) := by
  constructor
  · intro hfin hlast hw
    refine ⟨(st.tts_duration + duration) -
      (now - (if text == st.tts_first_text then now else st.tts_start_speak_time)), ?_, rfl⟩
    rw [sendAudio_sched now st duration text hfin hlast, List.drop_left, hw]
    simp
  · intro hw
    exact sendAudio_sched_nofin now st duration text (by simp [hw])

/-- Claim C9, witness: a single-segment farewell response schedules
sentence, stop and termination, the latter sharing the stop delay and
firing instant. -/
theorem c9_wit :
    ∃ d : ℚ,
      (sendAudioMessage 0 tts9w 2 "再见").scheduled.drop tts9w.scheduled.length
        = [STask.mk 0 tts9w.tts_duration (.sentenceStart "再见"),
           STask.mk 0 d .ttsStop, STask.mk 0 d .finishConn]
      ∧ fireAt (STask.mk 0 d .finishConn) = fireAt (STask.mk 0 d .ttsStop) := by
  exact (c9_amd 0 tts9w 2 "再见").1 rfl rfl (by decide)

/-! ## Claim C10 -/

/-- Claim C10: over a trace of voiceless frames with
`close_connection_no_voice_time = 120`, the first frame only records the
silence onset; once some later frame arrives more than 120000 ms after
it, the synthetic farewell is triggered exactly once — the trigger
disables the receive flag, so every subsequent frame is ignored and no
second trigger occurs. -/
theorem c10_thm (t0 : ℚ) (ts : List ℚ) (conn : Conn)
    (h1 : conn.asr_server_receive = true)
    (h2 : conn.client_listen_mode = .auto)
    (h3 : conn.client_no_voice_last_time = 0)
    (h4 : conn.close_no_voice_time = 120)
    (h5 : t0 ≠ 0)
    (h6 : ∃ t ∈ ts, 120000 < t - t0) :
    countFarewells conn (t0 :: ts) = 1 := by
  have hstep : handleAudioMessage (envSilent t0) conn 0 =
      ({ conn with
          client_have_voice := false, client_no_voice_last_time := t0,
          asr_audio := [] }, .silenceDiscarded false) := by
    simp [handleAudioMessage, no_voice_close_connect, envSilent, h1, h2, h3]
  simp only [countFarewells, hstep]
  rw [countFarewells_armed ts
    { conn with client_have_voice := false, client_no_voice_last_time := t0, asr_audio := [] }
    t0 h1 h2 rfl rfl h5 h4]
  have hany : (ts.any fun t => decide (120000 < t - t0)) = true := by
    rw [List.any_eq_true]
    obtain ⟨t, ht, hgt⟩ := h6
    exact ⟨t, ht, decide_eq_true hgt⟩
  rw [hany]
  simp

/-- Claim C10, witness: a voiceless trace starting at 1000 ms with later
frames at 130000 ms and 140000 ms (spanning more than 120 s) triggers the
farewell exactly once. -/
theorem c10_wit : countFarewells connC10 [1000, 130000, 140000] = 1 := by
  apply c10_thm 1000 [130000, 140000] connC10 rfl rfl rfl rfl (by norm_num)
  exact ⟨130000, by simp, by norm_num⟩

end XZ
